import Mathlib

/-!
# rtwatch: the media relay

A shallow embedding of the two Go source files of the repository:

* `gst/gst.go`: the buffer callback `goHandlePipelineBuffer`, which turns an
  encoded buffer into a sample written to one of the two shared tracks;
* `main.go`: the per-viewer signaling handler `serveWs` and its message
  handler `handleWebsocketMessage`.

Calls into collaborators (the tracks, the peer connection, the websocket, the
JSON codec for session descriptions) are modelled as results supplied by a
`World`, and every call is recorded in a trace of events.
-/

namespace Rtwatch

/-! ## IEEE 754 binary32 arithmetic, as used by `float32` in Go -/

namespace F32

/-- Round a rational to the nearest integer, ties going to the even one. -/
def roundHalfEven (x : ℚ) : ℤ :=
  if x - ⌊x⌋ < 1 / 2 then ⌊x⌋
  else if 1 / 2 < x - ⌊x⌋ then ⌊x⌋ + 1
  else if ⌊x⌋ % 2 = 0 then ⌊x⌋ else ⌊x⌋ + 1

/-- Exponent of the unit in the last place of the binary32 format at `x`:
24 significant bits for normal numbers, and the fixed exponent `-149` in the
subnormal range. -/
def ulpExp (x : ℚ) : ℤ := max (Int.log 2 |x| - 23) (-149)

/-- The binary32 value nearest to the rational `x` (round to nearest, ties to
even).  Results are finite as long as `|x| < 2 ^ 128`, which holds for every
value computed by the program. -/
def round (x : ℚ) : ℚ :=
  if x = 0 then 0 else (roundHalfEven (x / (2 : ℚ) ^ ulpExp x) : ℚ) * (2 : ℚ) ^ ulpExp x

/-- Conversion `float32(n)` of an integer. -/
def ofInt (n : ℤ) : ℚ := round (n : ℚ)

/-- The binary32 product. -/
def mul (a b : ℚ) : ℚ := round (a * b)

/-- The binary32 quotient. -/
def div (a b : ℚ) : ℚ := round (a / b)

/-- Truncation toward zero. -/
def trunc (x : ℚ) : ℤ := if 0 ≤ x then ⌊x⌋ else ⌈x⌉

/-- Conversion `uint32(f)` of a binary32 value: the fraction is discarded, and
the integer is kept modulo `2 ^ 32` (Go leaves the out-of-range result to the
implementation; in range, which is all the program produces for a duration
that is not negative, the conversion is exact truncation). -/
def toUint32 (x : ℚ) : ℕ := (trunc x % (2 : ℤ) ^ 32).toNat

end F32

/-! ## `gst/gst.go` -/

/-- Identity of a `*webrtc.Track`. -/
structure Track where
  id : ℕ
  deriving DecidableEq, Repr

/-- The struct `media.Sample`, with the two fields the program sets. -/
structure Sample where
  Data : List ℕ
  Samples : ℕ
  deriving DecidableEq, Repr

/-- The struct `Pipeline` (the native element handle carries no logic). -/
structure Pipeline where
  audioTrack : Track
  videoTrack : Track
  deriving DecidableEq, Repr

/-- The function `CreatePipeline`: stores the two tracks in the pipeline. -/
def CreatePipeline (audioTrack videoTrack : Track) : Pipeline :=
  { audioTrack := audioTrack, videoTrack := videoTrack }

def videoClockRate : ℕ := 90000

def audioClockRate : ℕ := 48000

/-- The expression `uint32(clockRate * (float32(duration) / 1000000000))`:
the two constants are converted to `float32`, like the duration. -/
def sampleCount (clockRate : ℕ) (duration : ℤ) : ℕ :=
  F32.toUint32
    (F32.mul (F32.round (clockRate : ℚ))
      (F32.div (F32.ofInt duration) (F32.round 1000000000)))

/-- Error value returned by `track.WriteSample`: `io.ErrClosedPipe`, or any
other error. -/
inductive WriteError where
  | closedPipe
  | other (msg : String)
  deriving DecidableEq, Repr

/-- Arguments of one call of `goHandlePipelineBuffer`: the memory behind the
pointer `buffer`, and the three C integers. -/
structure BufferCall where
  buffer : List ℕ
  bufferLen : ℕ
  duration : ℤ
  isVideo : ℤ
  deriving DecidableEq, Repr

/-- The call `C.GoBytes(buffer, bufferLen)`: a copy of the first `bufferLen`
bytes behind the pointer. -/
def GoBytes (buffer : List ℕ) (bufferLen : ℕ) : List ℕ := buffer.take bufferLen

/-- What the callback does to its collaborators. -/
inductive GstEvent where
  | writeSample (t : Track) (s : Sample)
  | free
  deriving DecidableEq, Repr

/-- Result of `track.WriteSample`, which may depend on everything done so far
(`none` is the nil error). -/
abbrev WriteOracle := List GstEvent → Track → Sample → Option WriteError

/-- State of a run of the callback: the events so far, and whether the
process has panicked. -/
structure GstRun where
  trace : List GstEvent
  panicked : Bool
  deriving DecidableEq, Repr

/-- The track and the sample chosen by the two branches of
`goHandlePipelineBuffer`. -/
def selectTrack (p : Pipeline) (b : BufferCall) : Track × ℕ :=
  if b.isVideo = 1 then (p.videoTrack, sampleCount videoClockRate b.duration)
  else (p.audioTrack, sampleCount audioClockRate b.duration)

/-- The function `goHandlePipelineBuffer`, run after the events `hist`. -/
def goHandlePipelineBuffer (p : Pipeline) (ws : WriteOracle) (hist : List GstEvent)
    (b : BufferCall) : GstRun :=
  let track := (selectTrack p b).1
  let samples := (selectTrack p b).2
  let sample : Sample := { Data := GoBytes b.buffer b.bufferLen, Samples := samples }
  match ws hist track sample with
  | some (WriteError.other _) =>
      { trace := hist ++ [GstEvent.writeSample track sample], panicked := true }
  | _ =>
      { trace := hist ++ [GstEvent.writeSample track sample, GstEvent.free], panicked := false }

/-- The pipeline presenting a sequence of buffers to the callback, one after
the other; a panic ends the process. -/
def runBuffers (p : Pipeline) (ws : WriteOracle) : List GstEvent → List BufferCall → GstRun
  | hist, [] => { trace := hist, panicked := false }
  | hist, b :: bs =>
      if (goHandlePipelineBuffer p ws hist b).panicked then goHandlePipelineBuffer p ws hist b
      else runBuffers p ws (goHandlePipelineBuffer p ws hist b).trace bs

/-- The samples written to the track `t`, in order. -/
def writesTo (t : Track) : List GstEvent → List Sample
  | [] => []
  | GstEvent.writeSample t1 s :: es => if t1 = t then s :: writesTo t es else writesTo t es
  | GstEvent.free :: es => writesTo t es

/-- The writes of a trace, each with its track, in order. -/
def allWrites : List GstEvent → List (Track × Sample)
  | [] => []
  | GstEvent.writeSample t s :: es => (t, s) :: allWrites es
  | GstEvent.free :: es => allWrites es

/-! ## `main.go` -/

/-- Error values are told apart by their text only. -/
abbrev Err := String

/-- The struct `websocketMessage`. -/
structure websocketMessage where
  Event : String
  Data : String
  deriving DecidableEq, Repr

/-- The struct `webrtc.SessionDescription`; its field `Type`, of the Go type
`SDPType`, is named after that type here. -/
structure SessionDescription where
  SDPType : String
  SDP : String
  deriving DecidableEq, Repr

/-- An inbound websocket frame, by what `json.Unmarshal` makes of its bytes
when the target is a pointer to a `*websocketMessage`:
* `malformed e`: the bytes are not JSON, or are a JSON value that does not
  fit the struct (a number, a string, an array, an object of which a member
  has the wrong type): `Unmarshal` returns the error `e`;
* `null`: the JSON literal `null`;
* `object event data`: a JSON object, with the members `event` and `data` it
  holds (`none` for a member that is absent or `null`). -/
inductive Frame where
  | malformed (e : Err)
  | null
  | object (event : Option String) (data : Option String)
  deriving DecidableEq, Repr

/-- The call `json.Unmarshal(msg, &message)`, where `message` has the type
`*websocketMessage` (`none` is the nil pointer).  The JSON literal `null`
sets the pointer to nil and is no error; an object is stored in the struct
the pointer points to (a new, zero one when the pointer is nil), and a member
that is absent leaves its field as it was. -/
def jsonUnmarshalMessage (f : Frame) (message : Option websocketMessage) :
    Except Err (Option websocketMessage) :=
  match f with
  | Frame.malformed e => Except.error e
  | Frame.null => Except.ok none
  | Frame.object event data =>
      let old : websocketMessage := message.getD { Event := "", Data := "" }
      Except.ok (some { Event := event.getD old.Event, Data := data.getD old.Data })

/-- Result of `upgrader.Upgrade`. -/
inductive UpgradeResult where
  | ok
  | handshakeError (e : Err)
  | otherError (e : Err)
  deriving DecidableEq, Repr

/-- What `serveWs` does to its collaborators: one event for each call. -/
inductive WsEvent where
  | upgrade
  | newPeerConnection
  | addTrack (t : Track)
  | createOffer
  | setLocalDescription (sdp : SessionDescription)
  | writeJSON (m : websocketMessage)
  | readMessage
  | setRemoteDescription (sdp : SessionDescription)
  | log (e : Err)
  | pcClose
  | wsClose
  deriving DecidableEq, Repr

/-- Results of the calls `serveWs` makes; `none` is the nil error.  The
result of `SetRemoteDescription` may depend on everything done before. -/
structure World where
  upgrade : UpgradeResult
  newPeerConnection : Option Err
  addTrack : Track → Option Err
  createOffer : Except Err SessionDescription
  setLocalDescription : SessionDescription → Option Err
  marshal : SessionDescription → Except Err String
  writeJSON : websocketMessage → Option Err
  unmarshalDescription : String → Except Err SessionDescription
  setRemoteDescription : List WsEvent → SessionDescription → Option Err
  pcClose : Option Err

/-- How a call of `handleWebsocketMessage` ends. -/
inductive HandleOutcome where
  | nilDereference
  | returned (err : Option Err)
  deriving DecidableEq, Repr

/-- The function `handleWebsocketMessage`, called after the events `hist`:
the events it adds, and how it ends.  Reading `message.Event` through a nil
pointer panics. -/
def handleWebsocketMessage (w : World) (hist : List WsEvent)
    (message : Option websocketMessage) : List WsEvent × HandleOutcome :=
  match message with
  | none => ([], HandleOutcome.nilDereference)
  | some m =>
      if m.Event = "answer" then
        match w.unmarshalDescription m.Data with
        | Except.error e => ([], HandleOutcome.returned (some e))
        | Except.ok answer =>
            match w.setRemoteDescription hist answer with
            | some e => ([WsEvent.setRemoteDescription answer], HandleOutcome.returned (some e))
            | none => ([WsEvent.setRemoteDescription answer], HandleOutcome.returned none)
      else ([], HandleOutcome.returned none)

/-- How the receive loop of `serveWs` is left. -/
inductive LoopExit where
  | readError
  | decodeError
  | nilDereference
  deriving DecidableEq, Repr

/-- State of the receive loop when it is left. -/
structure LoopRun where
  trace : List WsEvent
  exit : LoopExit
  deriving DecidableEq, Repr

/-- The receive loop of `serveWs`: the frames still to come (once they are
used up `ReadMessage` returns an error), the reused `message` pointer, and
the events so far. -/
def receiveLoop (w : World) : List Frame → Option websocketMessage → List WsEvent → LoopRun
  | [], _, hist => { trace := hist ++ [WsEvent.readMessage], exit := LoopExit.readError }
  | f :: fs, message, hist =>
      match jsonUnmarshalMessage f message with
      | Except.error e =>
          { trace := hist ++ [WsEvent.readMessage, WsEvent.log e], exit := LoopExit.decodeError }
      | Except.ok message1 =>
          match handleWebsocketMessage w (hist ++ [WsEvent.readMessage]) message1 with
          | (evs, HandleOutcome.nilDereference) =>
              { trace := hist ++ [WsEvent.readMessage] ++ evs, exit := LoopExit.nilDereference }
          | (evs, HandleOutcome.returned (some e)) =>
              receiveLoop w fs message1 (hist ++ [WsEvent.readMessage] ++ evs ++ [WsEvent.log e])
          | (evs, HandleOutcome.returned none) =>
              receiveLoop w fs message1 (hist ++ [WsEvent.readMessage] ++ evs)

/-- The deferred function of `serveWs` closing the peer connection. -/
def deferredPcClose (w : World) : List WsEvent :=
  match w.pcClose with
  | some e => [WsEvent.pcClose, WsEvent.log e]
  | none => [WsEvent.pcClose]

/-- A finished call of `serveWs`: its events, and whether it ended in a panic
(deferred calls run either way). -/
structure ServeRun where
  trace : List WsEvent
  panicked : Bool
  deriving DecidableEq, Repr

/-- The function `serveWs`, for the shared tracks `audioTrack` and
`videoTrack` and the inbound frames `frames`. -/
def serveWs (w : World) (audioTrack videoTrack : Track) (frames : List Frame) : ServeRun :=
  match w.upgrade with
  | UpgradeResult.handshakeError _ => { trace := [WsEvent.upgrade], panicked := false }
  | UpgradeResult.otherError e => { trace := [WsEvent.upgrade, WsEvent.log e], panicked := false }
  | UpgradeResult.ok =>
  -- from here on `ws.Close` is deferred
  match w.newPeerConnection with
  | some e =>
      { trace := [WsEvent.upgrade, WsEvent.newPeerConnection, WsEvent.log e, WsEvent.wsClose],
        panicked := false }
  | none =>
  match w.addTrack audioTrack with
  | some e =>
      { trace := [WsEvent.upgrade, WsEvent.newPeerConnection, WsEvent.addTrack audioTrack,
          WsEvent.log e, WsEvent.wsClose],
        panicked := false }
  | none =>
  match w.addTrack videoTrack with
  | some e =>
      { trace := [WsEvent.upgrade, WsEvent.newPeerConnection, WsEvent.addTrack audioTrack,
          WsEvent.addTrack videoTrack, WsEvent.log e, WsEvent.wsClose],
        panicked := false }
  | none =>
  -- from here on `peerConnection.Close` is deferred too, and runs first
  let bound : List WsEvent := [WsEvent.upgrade, WsEvent.newPeerConnection,
    WsEvent.addTrack audioTrack, WsEvent.addTrack videoTrack]
  match w.createOffer with
  | Except.error e =>
      { trace := bound ++ [WsEvent.createOffer, WsEvent.log e] ++ deferredPcClose w
          ++ [WsEvent.wsClose],
        panicked := false }
  | Except.ok sdp =>
  match w.setLocalDescription sdp with
  | some e =>
      { trace := bound ++ [WsEvent.createOffer, WsEvent.setLocalDescription sdp, WsEvent.log e]
          ++ deferredPcClose w ++ [WsEvent.wsClose],
        panicked := false }
  | none =>
  match w.marshal sdp with
  | Except.error e =>
      { trace := bound ++ [WsEvent.createOffer, WsEvent.setLocalDescription sdp, WsEvent.log e]
          ++ deferredPcClose w ++ [WsEvent.wsClose],
        panicked := false }
  | Except.ok sdpData =>
  let offerMsg : websocketMessage := { Event := "offer", Data := sdpData }
  let sent : List WsEvent := bound ++ [WsEvent.createOffer, WsEvent.setLocalDescription sdp,
    WsEvent.writeJSON offerMsg]
  match w.writeJSON offerMsg with
  | some e =>
      { trace := sent ++ [WsEvent.log e] ++ deferredPcClose w ++ [WsEvent.wsClose],
        panicked := false }
  | none =>
      { trace := (receiveLoop w frames (some { Event := "", Data := "" }) sent).trace
          ++ deferredPcClose w ++ [WsEvent.wsClose],
        panicked := decide ((receiveLoop w frames (some { Event := "", Data := "" }) sent).exit
          = LoopExit.nilDereference) }

/-- The messages sent over the websocket in a trace, in order. -/
def sentMessages : List WsEvent → List websocketMessage
  | [] => []
  | WsEvent.writeJSON m :: es => m :: sentMessages es
  | WsEvent.upgrade :: es => sentMessages es
  | WsEvent.newPeerConnection :: es => sentMessages es
  | WsEvent.addTrack _ :: es => sentMessages es
  | WsEvent.createOffer :: es => sentMessages es
  | WsEvent.setLocalDescription _ :: es => sentMessages es
  | WsEvent.readMessage :: es => sentMessages es
  | WsEvent.setRemoteDescription _ :: es => sentMessages es
  | WsEvent.log _ :: es => sentMessages es
  | WsEvent.pcClose :: es => sentMessages es
  | WsEvent.wsClose :: es => sentMessages es

/-- A world in which every call succeeds and every session description parses
(to a description holding the text). -/
def calmWorld : World :=
  { upgrade := UpgradeResult.ok
    newPeerConnection := none
    addTrack := fun _ => none
    createOffer := Except.ok { SDPType := "offer", SDP := "v=0" }
    setLocalDescription := fun _ => none
    marshal := fun d => Except.ok d.SDP
    writeJSON := fun _ => none
    unmarshalDescription := fun t => Except.ok { SDPType := "answer", SDP := t }
    setRemoteDescription := fun _ _ => none
    pcClose := none }

/-- The world `calmWorld`, but binding the audio track fails. -/
def audioBindFailsWorld : World :=
  { calmWorld with addTrack := fun t => if t.id = 0 then some "bind failed" else none }

/-- The world `calmWorld`, but the session description `"garbled"` does not
parse. -/
def garbledWorld : World :=
  { calmWorld with
    unmarshalDescription := fun t =>
      if t = "garbled" then Except.error "bad description"
      else Except.ok { SDPType := "answer", SDP := t } }

/-! ## Rounding to binary32: error bounds and evaluation -/

namespace F32

theorem roundHalfEven_sub_abs_le (x : ℚ) : |(roundHalfEven x : ℚ) - x| ≤ 1 / 2 := by
  unfold roundHalfEven
  have h1 := Int.floor_le x
  have h2 := Int.lt_floor_add_one x
  split_ifs with a b c
  · rw [abs_le]; constructor <;> linarith
  · push_cast; rw [abs_le]; constructor <;> linarith
  · rw [abs_le]; constructor <;> linarith
  · push_cast; rw [abs_le]; constructor <;> linarith

theorem roundHalfEven_intCast (m : ℤ) : roundHalfEven (m : ℚ) = m := by
  simp [roundHalfEven]

theorem roundHalfEven_eq_of_abs_lt (x : ℚ) (m : ℤ) (h : |x - m| < 1 / 2) :
    roundHalfEven x = m := by
  rw [abs_lt] at h
  obtain ⟨h1, h2⟩ := h
  unfold roundHalfEven
  by_cases hx : (m : ℚ) ≤ x
  · have hf : ⌊x⌋ = m := by
      rw [Int.floor_eq_iff]; constructor <;> linarith
    rw [hf, if_pos (by linarith)]
  · have hf : ⌊x⌋ = m - 1 := by
      rw [Int.floor_eq_iff]; push_cast; constructor <;> linarith
    rw [hf]
    push_cast
    rw [if_neg (by linarith), if_pos (by linarith)]
    ring

theorem roundHalfEven_tie (x : ℚ) (m : ℤ) (h : x = m + 1 / 2) :
    roundHalfEven x = if m % 2 = 0 then m else m + 1 := by
  have hf : ⌊x⌋ = m := by
    rw [Int.floor_eq_iff]; constructor <;> linarith
  unfold roundHalfEven
  rw [hf, if_neg (by linarith), if_neg (by linarith)]

theorem log_eq_of_bounds (x : ℚ) (e : ℤ) (lo : (2 : ℚ) ^ e ≤ x) (hi : x < (2 : ℚ) ^ (e + 1)) :
    Int.log 2 x = e := by
  have hpos : 0 < x := lt_of_lt_of_le (by positivity) lo
  have h1 : e ≤ Int.log 2 x := (Int.zpow_le_iff_le_log (by norm_num) hpos).1 (by exact_mod_cast lo)
  have h2 : Int.log 2 x < e + 1 :=
    (Int.lt_zpow_iff_log_lt (by norm_num) hpos).1 (by exact_mod_cast hi)
  omega

theorem round_eq_of_bounds (x : ℚ) (e m : ℤ) (lo : (2 : ℚ) ^ e ≤ x)
    (hi : x < (2 : ℚ) ^ (e + 1)) (he : -126 ≤ e)
    (hm : roundHalfEven (x / (2 : ℚ) ^ (e - 23)) = m) :
    round x = (m : ℚ) * (2 : ℚ) ^ (e - 23) := by
  have hpos : 0 < x := lt_of_lt_of_le (by positivity) lo
  have hu : ulpExp x = e - 23 := by
    unfold ulpExp
    rw [abs_of_pos hpos, log_eq_of_bounds x e lo hi]
    exact max_eq_left (by omega)
  unfold round
  rw [if_neg hpos.ne', hu, hm]

theorem two_zpow_ulpExp_le (x : ℚ) (hx : x ≠ 0) :
    (2 : ℚ) ^ ulpExp x ≤ |x| * (2 : ℚ) ^ (-23 : ℤ) + (2 : ℚ) ^ (-149 : ℤ) := by
  have hpos : 0 < |x| := abs_pos.2 hx
  have hlog : (2 : ℚ) ^ Int.log 2 |x| ≤ |x| := by
    have := Int.zpow_log_le_self (b := 2) (r := |x|) (by norm_num) hpos
    exact_mod_cast this
  unfold ulpExp
  rcases le_total (Int.log 2 |x| - 23) (-149) with h | h
  · rw [max_eq_right h]
    have : 0 ≤ |x| * (2 : ℚ) ^ (-23 : ℤ) := by positivity
    linarith
  · rw [max_eq_left h, zpow_sub₀ (by norm_num : (2 : ℚ) ≠ 0)]
    have h23 : (0 : ℚ) < (2 : ℚ) ^ (23 : ℤ) := by positivity
    have : (2 : ℚ) ^ Int.log 2 |x| / (2 : ℚ) ^ (23 : ℤ) ≤ |x| / (2 : ℚ) ^ (23 : ℤ) :=
      div_le_div_of_nonneg_right hlog h23.le
    have e1 : |x| / (2 : ℚ) ^ (23 : ℤ) = |x| * (2 : ℚ) ^ (-23 : ℤ) := by
      rw [zpow_neg, div_eq_mul_inv]
    have : (0 : ℚ) < (2 : ℚ) ^ (-149 : ℤ) := by positivity
    linarith

theorem round_sub_abs_le (x : ℚ) :
    |round x - x| ≤ |x| * (2 : ℚ) ^ (-24 : ℤ) + (2 : ℚ) ^ (-150 : ℤ) := by
  by_cases hx : x = 0
  · subst hx
    have : (0 : ℚ) ≤ (2 : ℚ) ^ (-150 : ℤ) := by positivity
    simpa [round] using this
  · have hu : (0 : ℚ) < (2 : ℚ) ^ ulpExp x := by positivity
    have hr := roundHalfEven_sub_abs_le (x / (2 : ℚ) ^ ulpExp x)
    have hb := two_zpow_ulpExp_le x hx
    have e1 : round x - x
        = ((roundHalfEven (x / (2 : ℚ) ^ ulpExp x) : ℚ) - x / (2 : ℚ) ^ ulpExp x)
          * (2 : ℚ) ^ ulpExp x := by
      unfold round
      rw [if_neg hx]
      field_simp
    rw [e1, abs_mul, abs_of_pos hu]
    have h2 : |(roundHalfEven (x / (2 : ℚ) ^ ulpExp x) : ℚ) - x / (2 : ℚ) ^ ulpExp x|
        * (2 : ℚ) ^ ulpExp x ≤ 1 / 2 * (2 : ℚ) ^ ulpExp x :=
      mul_le_mul_of_nonneg_right hr hu.le
    have e24 : (2 : ℚ) ^ (-24 : ℤ) = (2 : ℚ) ^ (-23 : ℤ) / 2 := by norm_num
    have e150 : (2 : ℚ) ^ (-150 : ℤ) = (2 : ℚ) ^ (-149 : ℤ) / 2 := by norm_num
    rw [e24, e150]
    generalize (2 : ℚ) ^ (-23 : ℤ) = a at hb ⊢
    generalize (2 : ℚ) ^ (-149 : ℤ) = b at hb ⊢
    generalize (2 : ℚ) ^ ulpExp x = u at hb h2 ⊢
    linarith

theorem round_nonneg (x : ℚ) (hx : 0 ≤ x) : 0 ≤ round x := by
  unfold round
  split_ifs with h
  · exact le_refl 0
  · have hu : (0 : ℚ) < (2 : ℚ) ^ ulpExp x := by positivity
    have hq : 0 ≤ x / (2 : ℚ) ^ ulpExp x := div_nonneg hx hu.le
    have hf : 0 ≤ ⌊x / (2 : ℚ) ^ ulpExp x⌋ := Int.floor_nonneg.2 hq
    have hr : 0 ≤ roundHalfEven (x / (2 : ℚ) ^ ulpExp x) := by
      unfold roundHalfEven
      split_ifs <;> omega
    have : (0 : ℚ) ≤ (roundHalfEven (x / (2 : ℚ) ^ ulpExp x) : ℚ) := by exact_mod_cast hr
    positivity

theorem round_zero : round 0 = 0 := by simp [round]

theorem toUint32_eq_floor (x : ℚ) (h0 : 0 ≤ x) (h1 : x < 4294967296) :
    (toUint32 x : ℤ) = ⌊x⌋ := by
  have hf0 : 0 ≤ ⌊x⌋ := Int.floor_nonneg.2 h0
  have hf1 : ⌊x⌋ < 4294967296 := by
    rw [Int.floor_lt]; exact_mod_cast h1
  unfold toUint32 trunc
  rw [if_pos h0]
  have : ⌊x⌋ % (2 : ℤ) ^ 32 = ⌊x⌋ := Int.emod_eq_of_lt hf0 (by norm_num; exact hf1)
  rw [this, Int.toNat_of_nonneg hf0]

end F32

theorem round_videoClockRate : F32.round (videoClockRate : ℚ) = 90000 := by
  have h := F32.round_eq_of_bounds 90000 16 11520000 (by norm_num) (by norm_num) (by norm_num)
    (by
      have e : (90000 : ℚ) / (2 : ℚ) ^ ((16 : ℤ) - 23) = ((11520000 : ℤ) : ℚ) := by norm_num
      rw [e, F32.roundHalfEven_intCast])
  rw [show ((videoClockRate : ℕ) : ℚ) = 90000 by norm_num [videoClockRate], h]
  norm_num

theorem round_audioClockRate : F32.round (audioClockRate : ℚ) = 48000 := by
  have h := F32.round_eq_of_bounds 48000 15 12288000 (by norm_num) (by norm_num) (by norm_num)
    (by
      have e : (48000 : ℚ) / (2 : ℚ) ^ ((15 : ℤ) - 23) = ((12288000 : ℤ) : ℚ) := by norm_num
      rw [e, F32.roundHalfEven_intCast])
  rw [show ((audioClockRate : ℕ) : ℚ) = 48000 by norm_num [audioClockRate], h]
  norm_num

theorem round_billion : F32.round 1000000000 = 1000000000 := by
  have h := F32.round_eq_of_bounds 1000000000 29 15625000 (by norm_num) (by norm_num)
    (by norm_num)
    (by
      have e : (1000000000 : ℚ) / (2 : ℚ) ^ ((29 : ℤ) - 23) = ((15625000 : ℤ) : ℚ) := by norm_num
      rw [e, F32.roundHalfEven_intCast])
  rw [h]
  norm_num

theorem sampleCount_zero (r : ℕ) : sampleCount r 0 = 0 := by
  simp [sampleCount, F32.ofInt, F32.div, F32.mul, F32.round_zero, F32.toUint32, F32.trunc]

theorem sampleCount_video_frame : sampleCount videoClockRate 33333333 = 2999 := by
  have h1 : F32.ofInt 33333333 = 33333332 := by
    have h := F32.round_eq_of_bounds 33333333 24 16666666 (by norm_num) (by norm_num)
      (by norm_num)
      (by
        rw [F32.roundHalfEven_tie _ 16666666 (by norm_num)]
        norm_num)
    unfold F32.ofInt
    push_cast
    rw [h]
    norm_num
  have h2 : F32.div 33333332 1000000000 = 8947848 / 268435456 := by
    have h := F32.round_eq_of_bounds (33333332 / 1000000000) (-5) 8947848 (by norm_num)
      (by norm_num) (by norm_num)
      (by
        apply F32.roundHalfEven_eq_of_abs_lt
        rw [abs_lt]
        constructor <;> norm_num)
    unfold F32.div
    rw [h]
    norm_num
  have h3 : F32.mul 90000 (8947848 / 268435456) = 12287999 / 4096 := by
    have h := F32.round_eq_of_bounds (90000 * (8947848 / 268435456)) 11 12287999 (by norm_num)
      (by norm_num) (by norm_num)
      (by
        apply F32.roundHalfEven_eq_of_abs_lt
        rw [abs_lt]
        constructor <;> norm_num)
    unfold F32.mul
    rw [h]
    norm_num
  have h4 : (F32.toUint32 (12287999 / 4096) : ℤ) = 2999 := by
    rw [F32.toUint32_eq_floor _ (by norm_num) (by norm_num), Int.floor_eq_iff]
    constructor <;> norm_num
  unfold sampleCount
  rw [round_videoClockRate, round_billion, h1, h2, h3]
  exact_mod_cast h4

/-- The value before truncation is within a twentieth of the exact one. -/
theorem product_close (r : ℚ) (hr0 : 0 ≤ r) (hr : r ≤ 90000) (d : ℚ) (hd0 : 0 ≤ d)
    (hd : d ≤ 2147483648) :
    0 ≤ F32.round (r * F32.round (F32.round d / 1000000000)) ∧
    |F32.round (r * F32.round (F32.round d / 1000000000)) - r * d / 1000000000| ≤ 1 / 20 := by
  have hu : (2 : ℚ) ^ (-24 : ℤ) = 1 / 16777216 := by norm_num
  have hη0 : (0 : ℚ) ≤ (2 : ℚ) ^ (-150 : ℤ) := by positivity
  have hη : (2 : ℚ) ^ (-150 : ℤ) ≤ 1 / 1000000000000 := by
    rw [zpow_neg, ← one_div]
    apply one_div_le_one_div_of_le (by norm_num)
    norm_num
  have ha0 : 0 ≤ F32.round d := F32.round_nonneg d hd0
  have ha := F32.round_sub_abs_le d
  rw [abs_of_nonneg hd0, hu, abs_le] at ha
  have hq0 : 0 ≤ F32.round d / 1000000000 := by positivity
  have hb0 : 0 ≤ F32.round (F32.round d / 1000000000) := F32.round_nonneg _ hq0
  have hb := F32.round_sub_abs_le (F32.round d / 1000000000)
  rw [abs_of_nonneg hq0, hu, abs_le] at hb
  have hp0 : 0 ≤ r * F32.round (F32.round d / 1000000000) := mul_nonneg hr0 hb0
  have hc0 := F32.round_nonneg _ hp0
  have hc := F32.round_sub_abs_le (r * F32.round (F32.round d / 1000000000))
  rw [abs_of_nonneg hp0, hu, abs_le] at hc
  refine ⟨hc0, ?_⟩
  generalize (2 : ℚ) ^ (-150 : ℤ) = η at *
  generalize F32.round (r * F32.round (F32.round d / 1000000000)) = c at *
  generalize F32.round (F32.round d / 1000000000) = b at *
  generalize F32.round d = a at *
  obtain ⟨ha1, ha2⟩ := ha
  obtain ⟨hb1, hb2⟩ := hb
  obtain ⟨hc1, hc2⟩ := hc
  have hbd1 : b - d / 1000000000 ≤ 27 / 100000000 := by linarith
  have hbd2 : -(27 / 100000000) ≤ b - d / 1000000000 := by linarith
  have hb3 : b ≤ 22 / 10 := by linarith
  have e1 : r * b - r * d / 1000000000 = r * (b - d / 1000000000) := by ring
  have h1 : r * (b - d / 1000000000) ≤ 90000 * (27 / 100000000) := by
    have := mul_le_mul_of_nonneg_left hbd1 hr0
    nlinarith
  have h2 : -(90000 * (27 / 100000000)) ≤ r * (b - d / 1000000000) := by
    have := mul_le_mul_of_nonneg_left hbd2 hr0
    nlinarith
  have h3 : r * b ≤ 90000 * (22 / 10) := by nlinarith
  rw [abs_le]
  constructor <;> linarith

/-- For either clock rate and a duration that fits a C `int`, the computed
sample count is the rounded exact count or one less. -/
theorem sampleCount_near_round (r : ℕ) (hr : r = videoClockRate ∨ r = audioClockRate)
    (d : ℤ) (h0 : 0 ≤ d) (h1 : d < 2147483648) :
    (sampleCount r d : ℤ) ≤ round ((r : ℚ) * (d : ℚ) / 1000000000) ∧
    round ((r : ℚ) * (d : ℚ) / 1000000000) ≤ (sampleCount r d : ℤ) + 1 := by
  have hrr : F32.round (r : ℚ) = (r : ℚ) ∧ (r : ℚ) ≤ 90000 := by
    rcases hr with h | h
    · subst h
      rw [round_videoClockRate]
      norm_num [videoClockRate]
    · subst h
      rw [round_audioClockRate]
      norm_num [audioClockRate]
  have hd0 : (0 : ℚ) ≤ (d : ℚ) := by exact_mod_cast h0
  have hd1 : (d : ℚ) ≤ 2147483648 := by exact_mod_cast h1.le
  obtain ⟨hc0, hc⟩ := product_close (r : ℚ) (Nat.cast_nonneg r) hrr.2 (d : ℚ) hd0 hd1
  have hv : (r : ℚ) * (d : ℚ) / 1000000000 ≤ 193274 := by
    have : (r : ℚ) * (d : ℚ) ≤ 90000 * 2147483648 :=
      mul_le_mul hrr.2 hd1 hd0 (by norm_num)
    linarith
  rw [abs_le] at hc
  have hs : (sampleCount r d : ℤ)
      = ⌊F32.round ((r : ℚ) * F32.round (F32.round (d : ℚ) / 1000000000))⌋ := by
    unfold sampleCount F32.mul F32.div F32.ofInt
    rw [hrr.1, round_billion]
    exact F32.toUint32_eq_floor _ hc0 (by linarith)
  rw [hs, round_eq]
  constructor
  · exact Int.floor_mono (by linarith)
  · rw [← Int.floor_add_one]
    exact Int.floor_mono (by linarith)

/-! ## The buffer callback -/

/-- The trace of one call of the callback: the write, and the release of the
buffer unless the call panics. -/
theorem goHandlePipelineBuffer_trace (p : Pipeline) (ws : WriteOracle) (hist : List GstEvent)
    (b : BufferCall) :
    ∃ tail, (goHandlePipelineBuffer p ws hist b).trace
      = hist ++ GstEvent.writeSample (selectTrack p b).1
          { Data := GoBytes b.buffer b.bufferLen, Samples := (selectTrack p b).2 } :: tail := by
  rcases h : ws hist (selectTrack p b).1
      { Data := GoBytes b.buffer b.bufferLen, Samples := (selectTrack p b).2 }
    with _ | _ | msg
  · exact ⟨[GstEvent.free], by simp [goHandlePipelineBuffer, h]⟩
  · exact ⟨[GstEvent.free], by simp [goHandlePipelineBuffer, h]⟩
  · exact ⟨[], by simp [goHandlePipelineBuffer, h]⟩

/-- The callback panics exactly when the write returns an error that is not
`io.ErrClosedPipe`. -/
theorem goHandlePipelineBuffer_panicked (p : Pipeline) (ws : WriteOracle)
    (hist : List GstEvent) (b : BufferCall) :
    (goHandlePipelineBuffer p ws hist b).panicked = true ↔
      ∃ msg, ws hist (selectTrack p b).1
        { Data := GoBytes b.buffer b.bufferLen, Samples := (selectTrack p b).2 }
          = some (WriteError.other msg) := by
  rcases h : ws hist (selectTrack p b).1
      { Data := GoBytes b.buffer b.bufferLen, Samples := (selectTrack p b).2 }
    with _ | _ | msg <;> simp [goHandlePipelineBuffer, h]

/-- A call that does not panic adds the write and the release of the buffer. -/
theorem goHandlePipelineBuffer_returns (p : Pipeline) (ws : WriteOracle)
    (hist : List GstEvent) (b : BufferCall)
    (h : (goHandlePipelineBuffer p ws hist b).panicked = false) :
    (goHandlePipelineBuffer p ws hist b).trace
      = hist ++ [GstEvent.writeSample (selectTrack p b).1
          { Data := GoBytes b.buffer b.bufferLen, Samples := (selectTrack p b).2 },
        GstEvent.free] := by
  rcases hw : ws hist (selectTrack p b).1
      { Data := GoBytes b.buffer b.bufferLen, Samples := (selectTrack p b).2 }
    with _ | _ | msg
  · simp [goHandlePipelineBuffer, hw]
  · simp [goHandlePipelineBuffer, hw]
  · simp [goHandlePipelineBuffer, hw] at h

/-- A run in which no write returns an error other than `io.ErrClosedPipe`
handles every buffer: each adds its write and its release, in order. -/
theorem runBuffers_of_no_panic (p : Pipeline) (ws : WriteOracle)
    (hws : ∀ hist t s msg, ws hist t s ≠ some (WriteError.other msg))
    (bufs : List BufferCall) (hist : List GstEvent) :
    (runBuffers p ws hist bufs).panicked = false ∧
    ∃ rest, (runBuffers p ws hist bufs).trace = hist ++ rest ∧
      rest.length = 2 * bufs.length ∧
      allWrites rest = bufs.map (fun b => ((selectTrack p b).1,
        ({ Data := GoBytes b.buffer b.bufferLen, Samples := (selectTrack p b).2 } : Sample))) := by
  induction bufs generalizing hist with
  | nil => exact ⟨rfl, [], by simp [runBuffers], rfl, rfl⟩
  | cons b bs ih =>
      have hp : (goHandlePipelineBuffer p ws hist b).panicked = false := by
        rcases hb : (goHandlePipelineBuffer p ws hist b).panicked with _ | _
        · rfl
        · obtain ⟨msg, hm⟩ := (goHandlePipelineBuffer_panicked p ws hist b).1 hb
          exact absurd hm (hws _ _ _ msg)
      have ht := goHandlePipelineBuffer_returns p ws hist b hp
      obtain ⟨h1, rest, h2, h3, h4⟩ := ih (goHandlePipelineBuffer p ws hist b).trace
      have hrun : runBuffers p ws hist (b :: bs)
          = runBuffers p ws (goHandlePipelineBuffer p ws hist b).trace bs := by
        simp [runBuffers, hp]
      rw [hrun]
      refine ⟨h1, [GstEvent.writeSample (selectTrack p b).1
          { Data := GoBytes b.buffer b.bufferLen, Samples := (selectTrack p b).2 },
        GstEvent.free] ++ rest, ?_, ?_, ?_⟩
      · rw [h2, ht, List.append_assoc]
      · simp [h3]; omega
      · simp [allWrites, h4]

/-- The writes seen by one track are those of the trace that name it. -/
theorem writesTo_eq_filter (t : Track) (l : List GstEvent) :
    writesTo t l = ((allWrites l).filter (fun x => decide (x.1 = t))).map (fun x => x.2) := by
  induction l with
  | nil => rfl
  | cons e es ih =>
      cases e with
      | writeSample t1 s1 => by_cases h : t1 = t <;> simp [writesTo, allWrites, ih, h]
      | free => simp [writesTo, allWrites, ih]

/-- Among the writes of a run, those naming the video track are the video
buffers. -/
theorem video_writes_of_map (p : Pipeline) (hne : p.audioTrack ≠ p.videoTrack)
    (bufs : List BufferCall) :
    (((bufs.map (fun b : BufferCall =>
          (if b.isVideo = 1 then p.videoTrack else p.audioTrack,
            ({ Data := GoBytes b.buffer b.bufferLen,
               Samples := sampleCount (if b.isVideo = 1 then videoClockRate else audioClockRate)
                 b.duration } : Sample)))).filter
        (fun x => decide (x.1 = p.videoTrack))).map (fun x => x.2))
      = (bufs.filter (fun b : BufferCall => decide (b.isVideo = 1))).map
          (fun b : BufferCall =>
            ({ Data := GoBytes b.buffer b.bufferLen,
               Samples := sampleCount videoClockRate b.duration } : Sample)) := by
  induction bufs with
  | nil => rfl
  | cons b bs ih =>
      by_cases hv : b.isVideo = 1
      · simpa [hv, List.filter_cons] using ih
      · simpa [hv, List.filter_cons, hne] using ih

/-- Among the writes of a run, those naming the audio track are the buffers
that are not video. -/
theorem audio_writes_of_map (p : Pipeline) (hne : p.audioTrack ≠ p.videoTrack)
    (bufs : List BufferCall) :
    (((bufs.map (fun b : BufferCall =>
          (if b.isVideo = 1 then p.videoTrack else p.audioTrack,
            ({ Data := GoBytes b.buffer b.bufferLen,
               Samples := sampleCount (if b.isVideo = 1 then videoClockRate else audioClockRate)
                 b.duration } : Sample)))).filter
        (fun x => decide (x.1 = p.audioTrack))).map (fun x => x.2))
      = (bufs.filter (fun b : BufferCall => decide (b.isVideo ≠ 1))).map
          (fun b : BufferCall =>
            ({ Data := GoBytes b.buffer b.bufferLen,
               Samples := sampleCount audioClockRate b.duration } : Sample)) := by
  induction bufs with
  | nil => rfl
  | cons b bs ih =>
      by_cases hv : b.isVideo = 1
      · simpa [hv, List.filter_cons, Ne.symm hne] using ih
      · simpa [hv, List.filter_cons] using ih

/-! ## Claims about `goHandlePipelineBuffer` -/

/-- C1 (counterexample): a video buffer of 33,333,333 ns is written with the
sample count 2999, while the exact count `90000 * 33333333 / 1e9` rounds to
3000. -/
theorem video_frame_sample_count_not_rounded :
    (goHandlePipelineBuffer (CreatePipeline ⟨0⟩ ⟨1⟩) (fun _ _ _ => none) []
        { buffer := [7], bufferLen := 1, duration := 33333333, isVideo := 1 }).trace
      = [GstEvent.writeSample ⟨1⟩ { Data := [7], Samples := 2999 }, GstEvent.free] ∧
    round ((90000 : ℚ) * 33333333 / 1000000000) = 3000 := by
  constructor
  · simp [goHandlePipelineBuffer, selectTrack, CreatePipeline, GoBytes, sampleCount_video_frame]
  · rw [round_eq, Int.floor_eq_iff]
    constructor <;> norm_num

/-- C1 (amended): for a duration `0 ≤ d < 2 ^ 31` the sample written by
`goHandlePipelineBuffer` goes to the track chosen by `isVideo`, and its sample
count, computed in `float32` and truncated, is `round (r * d / 1e9)` or one
less, for `r` the clock rate of that track (90000 for video, 48000 for audio);
a video buffer of 33,333,333 ns gets the sample count 2999. -/
theorem goHandlePipelineBuffer_sample_count (p : Pipeline) (ws : WriteOracle)
    (hist : List GstEvent) (b : BufferCall)
    (h0 : 0 ≤ b.duration) (h1 : b.duration < 2147483648) :
    ∃ s tail,
      (goHandlePipelineBuffer p ws hist b).trace
        = hist ++ GstEvent.writeSample (if b.isVideo = 1 then p.videoTrack else p.audioTrack) s
            :: tail ∧
      (s.Samples : ℤ) ≤ round (((if b.isVideo = 1 then videoClockRate else audioClockRate : ℕ) : ℚ)
        * (b.duration : ℚ) / 1000000000) ∧
      round (((if b.isVideo = 1 then videoClockRate else audioClockRate : ℕ) : ℚ)
        * (b.duration : ℚ) / 1000000000) ≤ (s.Samples : ℤ) + 1 ∧
      (b.isVideo = 1 → b.duration = 33333333 → s.Samples = 2999) := by
  obtain ⟨tail, ht⟩ := goHandlePipelineBuffer_trace p ws hist b
  refine ⟨{ Data := GoBytes b.buffer b.bufferLen, Samples := (selectTrack p b).2 }, tail,
    ?_, ?_⟩
  · rw [ht]
    by_cases hv : b.isVideo = 1 <;> simp [selectTrack, hv]
  · by_cases hv : b.isVideo = 1
    · have hb := sampleCount_near_round videoClockRate (Or.inl rfl) b.duration h0 h1
      simp only [selectTrack, hv, if_true]
      refine ⟨hb.1, hb.2, ?_⟩
      intro _ hd
      rw [hd]
      exact sampleCount_video_frame
    · have hb := sampleCount_near_round audioClockRate (Or.inr rfl) b.duration h0 h1
      simp only [selectTrack, hv, if_false]
      exact ⟨hb.1, hb.2, fun h => h.elim⟩

/-- Witness of `goHandlePipelineBuffer_sample_count`: an audio buffer of 20 ms. -/
theorem goHandlePipelineBuffer_sample_count_witness :
    (0 : ℤ) ≤ 20000000 ∧ (20000000 : ℤ) < 2147483648 ∧
    ∃ s tail,
      (goHandlePipelineBuffer (CreatePipeline ⟨0⟩ ⟨1⟩) (fun _ _ _ => none) []
          { buffer := [1, 2], bufferLen := 2, duration := 20000000, isVideo := 0 }).trace
        = [] ++ GstEvent.writeSample
            (if (0 : ℤ) = 1 then (CreatePipeline ⟨0⟩ ⟨1⟩).videoTrack
              else (CreatePipeline ⟨0⟩ ⟨1⟩).audioTrack) s :: tail ∧
      (s.Samples : ℤ) ≤ round (((if (0 : ℤ) = 1 then videoClockRate else audioClockRate : ℕ) : ℚ)
        * ((20000000 : ℤ) : ℚ) / 1000000000) ∧
      round (((if (0 : ℤ) = 1 then videoClockRate else audioClockRate : ℕ) : ℚ)
        * ((20000000 : ℤ) : ℚ) / 1000000000) ≤ (s.Samples : ℤ) + 1 ∧
      ((0 : ℤ) = 1 → (20000000 : ℤ) = 33333333 → s.Samples = 2999) :=
  ⟨by decide, by decide,
    goHandlePipelineBuffer_sample_count (CreatePipeline ⟨0⟩ ⟨1⟩) (fun _ _ _ => none) []
      { buffer := [1, 2], bufferLen := 2, duration := 20000000, isVideo := 0 }
      (by decide) (by decide)⟩

/-- C2: for a buffer of duration zero, `goHandlePipelineBuffer` writes a sample
with the sample count 0 to the track chosen by `isVideo`, video and audio
alike, and the call then ends like any other write: it panics only if the
write returns an error other than `io.ErrClosedPipe`. -/
theorem goHandlePipelineBuffer_zero_duration (p : Pipeline) (ws : WriteOracle)
    (hist : List GstEvent) (buffer : List ℕ) (bufferLen : ℕ) (isVideo : ℤ) :
    (∃ tail,
      (goHandlePipelineBuffer p ws hist
          { buffer := buffer, bufferLen := bufferLen, duration := 0, isVideo := isVideo }).trace
        = hist ++ GstEvent.writeSample (if isVideo = 1 then p.videoTrack else p.audioTrack)
            { Data := GoBytes buffer bufferLen, Samples := 0 } :: tail) ∧
    ((goHandlePipelineBuffer p ws hist
          { buffer := buffer, bufferLen := bufferLen, duration := 0, isVideo := isVideo }).panicked
        = true ↔
      ∃ e, ws hist (if isVideo = 1 then p.videoTrack else p.audioTrack)
          { Data := GoBytes buffer bufferLen, Samples := 0 } = some e ∧
        e ≠ WriteError.closedPipe) := by
  have hsel : selectTrack p
      { buffer := buffer, bufferLen := bufferLen, duration := 0, isVideo := isVideo }
      = (if isVideo = 1 then p.videoTrack else p.audioTrack, 0) := by
    by_cases hv : isVideo = 1 <;> simp [selectTrack, hv, sampleCount_zero]
  constructor
  · obtain ⟨tail, ht⟩ := goHandlePipelineBuffer_trace p ws hist
      { buffer := buffer, bufferLen := bufferLen, duration := 0, isVideo := isVideo }
    rw [hsel] at ht
    exact ⟨tail, ht⟩
  · rw [goHandlePipelineBuffer_panicked, hsel]
    constructor
    · rintro ⟨msg, hm⟩
      exact ⟨_, hm, by simp⟩
    · rintro ⟨e, he, hne⟩
      cases e with
      | closedPipe => exact absurd rfl hne
      | other msg => exact ⟨msg, he⟩

/-- C3: when every track write succeeds, a sequence of buffers presented to
`goHandlePipelineBuffer` ends without a panic and each buffer produces exactly
one write, to the video track when `isVideo` is 1 and to the audio track
otherwise, carrying the payload bytes of the buffer and the sample count
computed with the clock rate of that track; so the video track sees exactly the
video buffers in the order presented, and the audio track the others. -/
theorem runBuffers_writes_in_order (p : Pipeline) (ws : WriteOracle)
    (bufs : List BufferCall)
    (hok : ∀ hist t s, ws hist t s = none) (hne : p.audioTrack ≠ p.videoTrack) :
    (runBuffers p ws [] bufs).panicked = false ∧
    allWrites (runBuffers p ws [] bufs).trace
      = bufs.map (fun b : BufferCall =>
          (if b.isVideo = 1 then p.videoTrack else p.audioTrack,
            ({ Data := GoBytes b.buffer b.bufferLen,
               Samples := sampleCount (if b.isVideo = 1 then videoClockRate else audioClockRate)
                 b.duration } : Sample))) ∧
    writesTo p.videoTrack (runBuffers p ws [] bufs).trace
      = (bufs.filter (fun b : BufferCall => decide (b.isVideo = 1))).map (fun b : BufferCall =>
          ({ Data := GoBytes b.buffer b.bufferLen,
             Samples := sampleCount videoClockRate b.duration } : Sample)) ∧
    writesTo p.audioTrack (runBuffers p ws [] bufs).trace
      = (bufs.filter (fun b : BufferCall => decide (b.isVideo ≠ 1))).map (fun b : BufferCall =>
          ({ Data := GoBytes b.buffer b.bufferLen,
             Samples := sampleCount audioClockRate b.duration } : Sample)) := by
  obtain ⟨h1, rest, h2, _, h4⟩ :=
    runBuffers_of_no_panic p ws (fun hist t s msg => by simp [hok hist t s]) bufs []
  rw [List.nil_append] at h2
  have hall : allWrites (runBuffers p ws [] bufs).trace
      = bufs.map (fun b : BufferCall =>
          (if b.isVideo = 1 then p.videoTrack else p.audioTrack,
            ({ Data := GoBytes b.buffer b.bufferLen,
               Samples := sampleCount (if b.isVideo = 1 then videoClockRate else audioClockRate)
                 b.duration } : Sample))) := by
    rw [h2, h4]
    apply List.map_congr_left
    intro b _
    by_cases hv : b.isVideo = 1 <;> simp [selectTrack, hv]
  refine ⟨h1, hall, ?_, ?_⟩
  · rw [writesTo_eq_filter, hall]
    exact video_writes_of_map p hne bufs
  · rw [writesTo_eq_filter, hall]
    exact audio_writes_of_map p hne bufs

/-- Witness of `runBuffers_writes_in_order`: a video buffer, an audio buffer
and a second video buffer. -/
theorem runBuffers_writes_in_order_witness :
    writesTo (CreatePipeline ⟨0⟩ ⟨1⟩).videoTrack
        (runBuffers (CreatePipeline ⟨0⟩ ⟨1⟩) (fun _ _ _ => none) []
          [{ buffer := [1], bufferLen := 1, duration := 0, isVideo := 1 },
           { buffer := [2], bufferLen := 1, duration := 0, isVideo := 0 },
           { buffer := [3, 4], bufferLen := 1, duration := 0, isVideo := 1 }]).trace
      = ([{ buffer := [1], bufferLen := 1, duration := 0, isVideo := 1 },
          { buffer := [2], bufferLen := 1, duration := 0, isVideo := 0 },
          { buffer := [3, 4], bufferLen := 1, duration := 0, isVideo := 1 }].filter
            (fun b : BufferCall => decide (b.isVideo = 1))).map (fun b =>
          ({ Data := GoBytes b.buffer b.bufferLen,
             Samples := sampleCount videoClockRate b.duration } : Sample)) :=
  (runBuffers_writes_in_order (CreatePipeline ⟨0⟩ ⟨1⟩) (fun _ _ _ => none)
    [{ buffer := [1], bufferLen := 1, duration := 0, isVideo := 1 },
     { buffer := [2], bufferLen := 1, duration := 0, isVideo := 0 },
     { buffer := [3, 4], bufferLen := 1, duration := 0, isVideo := 1 }]
    (fun _ _ _ => rfl) (by decide)).2.2.1

/-- C4: `goHandlePipelineBuffer` panics if and only if the track write returns
an error other than `io.ErrClosedPipe`; when the write returns
`io.ErrClosedPipe` the call only releases the buffer and returns; so a
sequence of buffers whose writes all return `io.ErrClosedPipe` (no viewer is
attached) is handled to its end without a panic. -/
theorem goHandlePipelineBuffer_panics_iff (p : Pipeline) (ws : WriteOracle)
    (hist : List GstEvent) (b : BufferCall) (bufs : List BufferCall) :
    ((goHandlePipelineBuffer p ws hist b).panicked = true ↔
      ∃ e, ws hist (selectTrack p b).1
          { Data := GoBytes b.buffer b.bufferLen, Samples := (selectTrack p b).2 } = some e ∧
        e ≠ WriteError.closedPipe) ∧
    (ws hist (selectTrack p b).1
        { Data := GoBytes b.buffer b.bufferLen, Samples := (selectTrack p b).2 }
        = some WriteError.closedPipe →
      goHandlePipelineBuffer p ws hist b
        = { trace := hist ++ [GstEvent.writeSample (selectTrack p b).1
              { Data := GoBytes b.buffer b.bufferLen, Samples := (selectTrack p b).2 },
              GstEvent.free],
            panicked := false }) ∧
    ((runBuffers p (fun _ _ _ => some WriteError.closedPipe) hist bufs).panicked = false ∧
      (runBuffers p (fun _ _ _ => some WriteError.closedPipe) hist bufs).trace.length
        = hist.length + 2 * bufs.length) := by
  refine ⟨?_, ?_, ?_⟩
  · rw [goHandlePipelineBuffer_panicked]
    constructor
    · rintro ⟨msg, hm⟩
      exact ⟨_, hm, by simp⟩
    · rintro ⟨e, he, hne⟩
      cases e with
      | closedPipe => exact absurd rfl hne
      | other msg => exact ⟨msg, he⟩
  · intro h
    simp [goHandlePipelineBuffer, h]
  · obtain ⟨h1, rest, h2, h3, _⟩ :=
      runBuffers_of_no_panic p (fun _ _ _ => some WriteError.closedPipe)
        (fun _ _ _ msg => by simp) bufs hist
    refine ⟨h1, ?_⟩
    rw [h2, List.length_append, h3]

/-- Witness of `goHandlePipelineBuffer_panics_iff`: a video buffer whose
write returns `io.ErrClosedPipe`. -/
theorem goHandlePipelineBuffer_panics_iff_witness :
    goHandlePipelineBuffer (CreatePipeline ⟨0⟩ ⟨1⟩) (fun _ _ _ => some WriteError.closedPipe) []
        { buffer := [9, 8], bufferLen := 2, duration := 0, isVideo := 1 }
      = { trace := [] ++ [GstEvent.writeSample
              (selectTrack (CreatePipeline ⟨0⟩ ⟨1⟩)
                { buffer := [9, 8], bufferLen := 2, duration := 0, isVideo := 1 }).1
              { Data := GoBytes [9, 8] 2,
                Samples := (selectTrack (CreatePipeline ⟨0⟩ ⟨1⟩)
                  { buffer := [9, 8], bufferLen := 2, duration := 0, isVideo := 1 }).2 },
            GstEvent.free],
          panicked := false } :=
  (goHandlePipelineBuffer_panics_iff (CreatePipeline ⟨0⟩ ⟨1⟩)
    (fun _ _ _ => some WriteError.closedPipe) []
    { buffer := [9, 8], bufferLen := 2, duration := 0, isVideo := 1 } []).2.1 rfl

/-! ## The signaling handler -/

theorem sentMessages_append (l1 l2 : List WsEvent) :
    sentMessages (l1 ++ l2) = sentMessages l1 ++ sentMessages l2 := by
  induction l1 with
  | nil => rfl
  | cons e es ih => cases e <;> simp [sentMessages, ih]

/-- The handler adds at most a call of `SetRemoteDescription`, and sends
nothing. -/
theorem handleWebsocketMessage_sends_nothing (w : World) (hist : List WsEvent)
    (message : Option websocketMessage) :
    sentMessages (handleWebsocketMessage w hist message).1 = [] := by
  unfold handleWebsocketMessage
  split
  · rfl
  · split_ifs
    · split
      · rfl
      · split <;> rfl
    · rfl

/-- The receive loop extends the trace it starts from, and sends nothing. -/
theorem receiveLoop_extends (w : World) (frames : List Frame)
    (message : Option websocketMessage) (hist : List WsEvent) :
    ∃ rest, (receiveLoop w frames message hist).trace = hist ++ WsEvent.readMessage :: rest ∧
      sentMessages rest = [] := by
  induction frames generalizing message hist with
  | nil => exact ⟨[], rfl, rfl⟩
  | cons f fs ih =>
      rcases hd : jsonUnmarshalMessage f message with e | message1
      · exact ⟨[WsEvent.log e], by simp [receiveLoop, hd], rfl⟩
      · have hs := handleWebsocketMessage_sends_nothing w (hist ++ [WsEvent.readMessage]) message1
        rcases hh : handleWebsocketMessage w (hist ++ [WsEvent.readMessage]) message1
          with ⟨evs, _ | _ | e⟩
        · rw [hh] at hs
          exact ⟨evs, by simp [receiveLoop, hd, hh], hs⟩
        · rw [hh] at hs
          obtain ⟨rest, h1, h2⟩ := ih message1 (hist ++ [WsEvent.readMessage] ++ evs)
          have hstep : receiveLoop w (f :: fs) message hist
              = receiveLoop w fs message1 (hist ++ [WsEvent.readMessage] ++ evs) := by
            simp only [receiveLoop, hd, hh]
          refine ⟨evs ++ WsEvent.readMessage :: rest, ?_, ?_⟩
          · rw [hstep, h1]
            simp
          · rw [sentMessages_append]
            simp [sentMessages, hs, h2]
        · rw [hh] at hs
          obtain ⟨rest, h1, h2⟩ :=
            ih message1 (hist ++ [WsEvent.readMessage] ++ evs ++ [WsEvent.log e])
          have hstep : receiveLoop w (f :: fs) message hist
              = receiveLoop w fs message1
                  (hist ++ [WsEvent.readMessage] ++ evs ++ [WsEvent.log e]) := by
            simp only [receiveLoop, hd, hh]
          refine ⟨evs ++ WsEvent.log e :: WsEvent.readMessage :: rest, ?_, ?_⟩
          · rw [hstep, h1]
            simp
          · rw [sentMessages_append]
            simp [sentMessages, hs, h2]

/-- One turn of the receive loop for a frame that decodes and whose handling
returns an error: the error is logged and the loop goes on. -/
theorem receiveLoop_step_error (w : World) (f : Frame) (fs : List Frame)
    (message : Option websocketMessage) (hist : List WsEvent) (m : Option websocketMessage)
    (evs : List WsEvent) (e : Err)
    (hd : jsonUnmarshalMessage f message = Except.ok m)
    (hh : handleWebsocketMessage w (hist ++ [WsEvent.readMessage]) m
      = (evs, HandleOutcome.returned (some e))) :
    receiveLoop w (f :: fs) message hist
      = receiveLoop w fs m (hist ++ [WsEvent.readMessage] ++ evs ++ [WsEvent.log e]) := by
  simp only [receiveLoop, hd, hh]

/-- One turn of the receive loop for a frame that decodes and whose handling
returns no error. -/
theorem receiveLoop_step_ok (w : World) (f : Frame) (fs : List Frame)
    (message : Option websocketMessage) (hist : List WsEvent) (m : Option websocketMessage)
    (evs : List WsEvent)
    (hd : jsonUnmarshalMessage f message = Except.ok m)
    (hh : handleWebsocketMessage w (hist ++ [WsEvent.readMessage]) m
      = (evs, HandleOutcome.returned none)) :
    receiveLoop w (f :: fs) message hist
      = receiveLoop w fs m (hist ++ [WsEvent.readMessage] ++ evs) := by
  simp only [receiveLoop, hd, hh]

/-- An `answer` frame whose data parses is applied to the peer connection. -/
theorem receiveLoop_answer (w : World) (fs : List Frame) (message : Option websocketMessage)
    (hist : List WsEvent) (good : String) (sdp : SessionDescription)
    (hp : w.unmarshalDescription good = Except.ok sdp) :
    ∃ tail, (receiveLoop w (Frame.object (some "answer") (some good) :: fs) message hist).trace
      = hist ++ [WsEvent.readMessage, WsEvent.setRemoteDescription sdp] ++ tail := by
  have hd : jsonUnmarshalMessage (Frame.object (some "answer") (some good)) message
      = Except.ok (some { Event := "answer", Data := good }) := by
    simp [jsonUnmarshalMessage]
  rcases hs : w.setRemoteDescription (hist ++ [WsEvent.readMessage]) sdp with _ | e
  · have hh : handleWebsocketMessage w (hist ++ [WsEvent.readMessage])
        (some { Event := "answer", Data := good })
        = ([WsEvent.setRemoteDescription sdp], HandleOutcome.returned none) := by
      simp [handleWebsocketMessage, hp, hs]
    rw [receiveLoop_step_ok w _ fs message hist _ _ hd hh]
    obtain ⟨rest, h1, _⟩ := receiveLoop_extends w fs (some { Event := "answer", Data := good })
      (hist ++ [WsEvent.readMessage] ++ [WsEvent.setRemoteDescription sdp])
    exact ⟨WsEvent.readMessage :: rest, by rw [h1]; simp⟩
  · have hh : handleWebsocketMessage w (hist ++ [WsEvent.readMessage])
        (some { Event := "answer", Data := good })
        = ([WsEvent.setRemoteDescription sdp], HandleOutcome.returned (some e)) := by
      simp [handleWebsocketMessage, hp, hs]
    rw [receiveLoop_step_error w _ fs message hist _ _ e hd hh]
    obtain ⟨rest, h1, _⟩ := receiveLoop_extends w fs (some { Event := "answer", Data := good })
      (hist ++ [WsEvent.readMessage] ++ [WsEvent.setRemoteDescription sdp] ++ [WsEvent.log e])
    exact ⟨WsEvent.log e :: WsEvent.readMessage :: rest, by rw [h1]; simp⟩

/-- The handler ends in a nil dereference only for the nil pointer; otherwise
it returns, having called nothing but `SetRemoteDescription`. -/
theorem handleWebsocketMessage_some (w : World) (hist : List WsEvent) (m : websocketMessage) :
    ∃ evs err, handleWebsocketMessage w hist (some m) = (evs, HandleOutcome.returned err) ∧
      (evs = [] ∨ ∃ sdp, evs = [WsEvent.setRemoteDescription sdp]) := by
  unfold handleWebsocketMessage
  by_cases hev : m.Event = "answer"
  · rcases hp : w.unmarshalDescription m.Data with e | answer
    · exact ⟨[], some e, by simp [hev, hp], Or.inl rfl⟩
    · rcases hs : w.setRemoteDescription hist answer with _ | e
      · exact ⟨[WsEvent.setRemoteDescription answer], none, by simp [hev, hp, hs],
          Or.inr ⟨answer, rfl⟩⟩
      · exact ⟨[WsEvent.setRemoteDescription answer], some e, by simp [hev, hp, hs],
          Or.inr ⟨answer, rfl⟩⟩
  · exact ⟨[], none, by simp [hev], Or.inl rfl⟩

/-- Frames that are all JSON objects are all read, and the loop is left by the
read error that follows them. -/
theorem receiveLoop_objects (w : World) (frames : List Frame)
    (hobj : ∀ f ∈ frames, ∃ event data, f = Frame.object event data)
    (message : Option websocketMessage) (hist : List WsEvent) :
    (receiveLoop w frames message hist).exit = LoopExit.readError ∧
    (receiveLoop w frames message hist).trace.count WsEvent.readMessage
      = hist.count WsEvent.readMessage + (frames.length + 1) := by
  induction frames generalizing message hist with
  | nil => simp [receiveLoop]
  | cons f fs ih =>
      obtain ⟨event, data, hf⟩ := hobj f (List.mem_cons_self f fs)
      have hfs : ∀ g ∈ fs, ∃ event data, g = Frame.object event data :=
        fun g hg => hobj g (List.mem_cons_of_mem f hg)
      subst hf
      obtain ⟨m, hd⟩ : ∃ m, jsonUnmarshalMessage (Frame.object event data) message
          = Except.ok (some m) := ⟨_, rfl⟩
      obtain ⟨evs, err, hh, hshape⟩ :=
        handleWebsocketMessage_some w (hist ++ [WsEvent.readMessage]) m
      have hevs : evs.count WsEvent.readMessage = 0 := by
        rcases hshape with h | ⟨sdp, h⟩ <;> subst h <;> rfl
      cases err with
      | none =>
          rw [receiveLoop_step_ok w _ fs message hist _ _ hd hh]
          obtain ⟨h1, h2⟩ := ih hfs _ (hist ++ [WsEvent.readMessage] ++ evs)
          refine ⟨h1, ?_⟩
          rw [h2]
          simp [List.count_append, hevs]
          omega
      | some e =>
          rw [receiveLoop_step_error w _ fs message hist _ _ e hd hh]
          obtain ⟨h1, h2⟩ := ih hfs _ (hist ++ [WsEvent.readMessage] ++ evs ++ [WsEvent.log e])
          refine ⟨h1, ?_⟩
          rw [h2]
          simp [List.count_append, hevs]
          omega

/-- A frame that fails to decode ends the loop: when the frames before it are
all handled, the loop is left right after the failure is logged. -/
theorem receiveLoop_malformed (w : World) (pre post : List Frame) (e : Err)
    (message : Option websocketMessage) (hist : List WsEvent)
    (hpre : (receiveLoop w pre message hist).exit = LoopExit.readError) :
    receiveLoop w (pre ++ Frame.malformed e :: post) message hist
      = { trace := (receiveLoop w pre message hist).trace ++ [WsEvent.log e],
          exit := LoopExit.decodeError } := by
  induction pre generalizing message hist with
  | nil => simp [receiveLoop, jsonUnmarshalMessage]
  | cons f fs ih =>
      rcases hd : jsonUnmarshalMessage f message with e1 | m
      · simp [receiveLoop, hd] at hpre
      · rcases hh : handleWebsocketMessage w (hist ++ [WsEvent.readMessage]) m
          with ⟨evs, _ | _ | e1⟩
        · simp [receiveLoop, hd, hh] at hpre
        · rw [receiveLoop_step_ok w f fs message hist m evs hd hh] at hpre ⊢
          rw [List.cons_append, receiveLoop_step_ok w f _ message hist m evs hd hh]
          exact ih _ _ hpre
        · rw [receiveLoop_step_error w f fs message hist m evs e1 hd hh] at hpre ⊢
          rw [List.cons_append, receiveLoop_step_error w f _ message hist m evs e1 hd hh]
          exact ih _ _ hpre

/-- The receive loop does not close the peer connection. -/
theorem receiveLoop_pcClose_count (w : World) (frames : List Frame)
    (message : Option websocketMessage) (hist : List WsEvent) :
    (receiveLoop w frames message hist).trace.count WsEvent.pcClose
      = hist.count WsEvent.pcClose := by
  induction frames generalizing message hist with
  | nil => simp [receiveLoop]
  | cons f fs ih =>
      rcases hd : jsonUnmarshalMessage f message with e | m
      · simp [receiveLoop, hd]
      · cases m with
        | none => simp [receiveLoop, hd, handleWebsocketMessage]
        | some m =>
            obtain ⟨evs, err, hh, hshape⟩ :=
              handleWebsocketMessage_some w (hist ++ [WsEvent.readMessage]) m
            have hevs : evs.count WsEvent.pcClose = 0 := by
              rcases hshape with h | ⟨sdp, h⟩ <;> subst h <;> rfl
            cases err with
            | none =>
                rw [receiveLoop_step_ok w f fs message hist _ evs hd hh, ih]
                simp [List.count_append, hevs]
            | some e =>
                rw [receiveLoop_step_error w f fs message hist _ evs e hd hh, ih]
                simp [List.count_append, hevs]

/-- Once both tracks are bound, every way out of `serveWs` closes the peer
connection exactly once. -/
theorem serveWs_pcClose_once (w : World) (audioTrack videoTrack : Track) (frames : List Frame)
    (hup : w.upgrade = UpgradeResult.ok) (h1 : w.newPeerConnection = none)
    (h2 : w.addTrack audioTrack = none) (h3 : w.addTrack videoTrack = none) :
    (serveWs w audioTrack videoTrack frames).trace.count WsEvent.pcClose = 1 := by
  have hdef : (deferredPcClose w).count WsEvent.pcClose = 1 := by
    unfold deferredPcClose
    split <;> rfl
  rcases h4 : w.createOffer with e4 | sdp
  · simp [serveWs, hup, h1, h2, h3, h4, List.count_append, hdef]
  rcases h5 : w.setLocalDescription sdp with _ | e5
  swap
  · simp [serveWs, hup, h1, h2, h3, h4, h5, List.count_append, hdef]
  rcases h6 : w.marshal sdp with e6 | data
  · simp [serveWs, hup, h1, h2, h3, h4, h5, h6, List.count_append, hdef]
  rcases h7 : w.writeJSON { Event := "offer", Data := data } with _ | e7
  swap
  · simp [serveWs, hup, h1, h2, h3, h4, h5, h6, h7, List.count_append, hdef]
  simp only [serveWs, hup, h1, h2, h3, h4, h5, h6, h7]
  rw [List.count_append, List.count_append, receiveLoop_pcClose_count, hdef]
  simp

/-- A trace that ends with the closing of the websocket. -/
theorem last_wsClose (l : List WsEvent) :
    (l ++ [WsEvent.wsClose]).getLast? = some WsEvent.wsClose := by
  simp

theorem last_wsClose_cons (x : WsEvent) (l : List WsEvent) :
    (x :: (l ++ [WsEvent.wsClose])).getLast? = some WsEvent.wsClose :=
  last_wsClose (x :: l)

/-! ## Claims about `serveWs` and `handleWebsocketMessage` -/

/-- C5: once the channel is upgraded, `serveWs` closes it on return, and sends
at most one message, the offer `{event: "offer", data: <serialized offer>}`.
When every setup step succeeds the trace starts with the creation of the peer
connection, the binding of the audio and the video track, the creation of the
offer, its setting as local description and the sending of the offer, in that
order, nothing is sent afterwards, and the first read comes after the send.
When creating the peer connection, adding a track, creating the offer, setting
it, serializing it or sending it fails, no message is ever read. -/
theorem serveWs_offer (w : World) (audioTrack videoTrack : Track) (frames : List Frame)
    (hup : w.upgrade = UpgradeResult.ok) :
    (serveWs w audioTrack videoTrack frames).trace.getLast? = some WsEvent.wsClose ∧
    (∀ m ∈ sentMessages (serveWs w audioTrack videoTrack frames).trace,
      sentMessages (serveWs w audioTrack videoTrack frames).trace = [m] ∧
      m.Event = "offer" ∧
      ∃ sdp, w.createOffer = Except.ok sdp ∧ w.marshal sdp = Except.ok m.Data) ∧
    (∀ sdp data, w.newPeerConnection = none → w.addTrack audioTrack = none →
      w.addTrack videoTrack = none → w.createOffer = Except.ok sdp →
      w.setLocalDescription sdp = none → w.marshal sdp = Except.ok data →
      w.writeJSON { Event := "offer", Data := data } = none →
      ∃ rest, (serveWs w audioTrack videoTrack frames).trace
          = [WsEvent.upgrade, WsEvent.newPeerConnection, WsEvent.addTrack audioTrack,
              WsEvent.addTrack videoTrack, WsEvent.createOffer,
              WsEvent.setLocalDescription sdp,
              WsEvent.writeJSON { Event := "offer", Data := data },
              WsEvent.readMessage] ++ rest ∧
        sentMessages rest = []) ∧
    ((w.newPeerConnection ≠ none ∨ w.addTrack audioTrack ≠ none ∨
        w.addTrack videoTrack ≠ none ∨ (∃ e, w.createOffer = Except.error e) ∨
        (∃ sdp, w.createOffer = Except.ok sdp ∧
          (w.setLocalDescription sdp ≠ none ∨ (∃ e, w.marshal sdp = Except.error e) ∨
            ∃ data, w.marshal sdp = Except.ok data ∧
              w.writeJSON { Event := "offer", Data := data } ≠ none))) →
      WsEvent.readMessage ∉ (serveWs w audioTrack videoTrack frames).trace ∧
      (serveWs w audioTrack videoTrack frames).panicked = false) := by
  have hdef : sentMessages (deferredPcClose w) = [] ∧
      WsEvent.readMessage ∉ deferredPcClose w := by
    unfold deferredPcClose
    split <;> simp [sentMessages]
  rcases h1 : w.newPeerConnection with _ | e1
  swap
  · refine ⟨?_, ?_, ?_, ?_⟩
    · simp [serveWs, hup, h1, last_wsClose, last_wsClose_cons]
    · simp [serveWs, hup, h1, sentMessages, sentMessages_append, hdef]
    · intro sdp1 data1 g1 g2 g3 g4 g5 g6 g7
      simp_all
    · intro _
      simp [serveWs, hup, h1, hdef]
  rcases h2 : w.addTrack audioTrack with _ | e2
  swap
  · refine ⟨?_, ?_, ?_, ?_⟩
    · simp [serveWs, hup, h1, h2, last_wsClose, last_wsClose_cons]
    · simp [serveWs, hup, h1, h2, sentMessages, sentMessages_append, hdef]
    · intro sdp1 data1 g1 g2 g3 g4 g5 g6 g7
      simp_all
    · intro _
      simp [serveWs, hup, h1, h2, hdef]
  rcases h3 : w.addTrack videoTrack with _ | e3
  swap
  · refine ⟨?_, ?_, ?_, ?_⟩
    · simp [serveWs, hup, h1, h2, h3, last_wsClose, last_wsClose_cons]
    · simp [serveWs, hup, h1, h2, h3, sentMessages, sentMessages_append, hdef]
    · intro sdp1 data1 g1 g2 g3 g4 g5 g6 g7
      simp_all
    · intro _
      simp [serveWs, hup, h1, h2, h3, hdef]
  rcases h4 : w.createOffer with e4 | sdp
  · refine ⟨?_, ?_, ?_, ?_⟩
    · simp [serveWs, hup, h1, h2, h3, h4, last_wsClose, last_wsClose_cons]
    · simp [serveWs, hup, h1, h2, h3, h4, sentMessages, sentMessages_append, hdef]
    · intro sdp1 data1 g1 g2 g3 g4 g5 g6 g7
      simp_all
    · intro _
      simp [serveWs, hup, h1, h2, h3, h4, hdef]
  rcases h5 : w.setLocalDescription sdp with _ | e5
  swap
  · refine ⟨?_, ?_, ?_, ?_⟩
    · simp [serveWs, hup, h1, h2, h3, h4, h5, last_wsClose, last_wsClose_cons]
    · simp [serveWs, hup, h1, h2, h3, h4, h5, sentMessages, sentMessages_append, hdef]
    · intro sdp1 data1 g1 g2 g3 g4 g5 g6 g7
      simp_all
    · intro _
      simp [serveWs, hup, h1, h2, h3, h4, h5, hdef]
  rcases h6 : w.marshal sdp with e6 | data
  · refine ⟨?_, ?_, ?_, ?_⟩
    · simp [serveWs, hup, h1, h2, h3, h4, h5, h6, last_wsClose, last_wsClose_cons]
    · simp [serveWs, hup, h1, h2, h3, h4, h5, h6, sentMessages, sentMessages_append, hdef]
    · intro sdp1 data1 g1 g2 g3 g4 g5 g6 g7
      simp_all
    · intro _
      simp [serveWs, hup, h1, h2, h3, h4, h5, h6, hdef]
  rcases h7 : w.writeJSON { Event := "offer", Data := data } with _ | e7
  swap
  · refine ⟨?_, ?_, ?_, ?_⟩
    · simp [serveWs, hup, h1, h2, h3, h4, h5, h6, h7, last_wsClose, last_wsClose_cons]
    · simp [serveWs, hup, h1, h2, h3, h4, h5, h6, h7, sentMessages, sentMessages_append, hdef]
    · intro sdp1 data1 g1 g2 g3 g4 g5 g6 g7
      simp_all
    · intro _
      simp [serveWs, hup, h1, h2, h3, h4, h5, h6, h7, hdef]
  obtain ⟨rest, hr1, hr2⟩ := receiveLoop_extends w frames (some { Event := "", Data := "" })
    ([WsEvent.upgrade, WsEvent.newPeerConnection, WsEvent.addTrack audioTrack,
      WsEvent.addTrack videoTrack] ++ [WsEvent.createOffer, WsEvent.setLocalDescription sdp,
      WsEvent.writeJSON { Event := "offer", Data := data }])
  have htrace : (serveWs w audioTrack videoTrack frames).trace
      = [WsEvent.upgrade, WsEvent.newPeerConnection, WsEvent.addTrack audioTrack,
          WsEvent.addTrack videoTrack, WsEvent.createOffer, WsEvent.setLocalDescription sdp,
          WsEvent.writeJSON { Event := "offer", Data := data }, WsEvent.readMessage]
        ++ (rest ++ deferredPcClose w ++ [WsEvent.wsClose]) := by
    simp only [serveWs, hup, h1, h2, h3, h4, h5, h6, h7]
    rw [hr1]
    simp
  have hsent : sentMessages (rest ++ deferredPcClose w ++ [WsEvent.wsClose]) = [] := by
    simp [sentMessages_append, hr2, hdef, sentMessages]
  refine ⟨?_, ?_, ?_, ?_⟩
  · rw [htrace, ← List.append_assoc]
    exact last_wsClose _
  · rw [htrace, sentMessages_append, hsent]
    simp [sentMessages, h6]
  · intro sdp1 data1 _ _ _ hs _ hm _
    cases hs
    rw [h6] at hm
    cases hm
    exact ⟨_, htrace, hsent⟩
  · intro hfail
    simp [h5, h6, h7] at hfail

/-- Witness of `serveWs_offer`: a calm world and a viewer that sends one
answer. -/
theorem serveWs_offer_witness :
    calmWorld.upgrade = UpgradeResult.ok ∧
    ∃ rest, (serveWs calmWorld ⟨0⟩ ⟨1⟩ [Frame.object (some "answer") (some "v=0")]).trace
        = [WsEvent.upgrade, WsEvent.newPeerConnection, WsEvent.addTrack ⟨0⟩,
            WsEvent.addTrack ⟨1⟩, WsEvent.createOffer,
            WsEvent.setLocalDescription { SDPType := "offer", SDP := "v=0" },
            WsEvent.writeJSON { Event := "offer", Data := "v=0" },
            WsEvent.readMessage] ++ rest ∧
      sentMessages rest = [] :=
  ⟨rfl, (serveWs_offer calmWorld ⟨0⟩ ⟨1⟩ [Frame.object (some "answer") (some "v=0")] rfl).2.2.1
    { SDPType := "offer", SDP := "v=0" } "v=0" rfl rfl rfl rfl rfl rfl rfl⟩

/-- C6: for a message whose event is not exactly `"answer"`,
`handleWebsocketMessage` returns no error and calls nothing on the peer
connection (`SetRemoteDescription` is not called), whatever the data. -/
theorem handleWebsocketMessage_ignores_other_events (w : World) (hist : List WsEvent)
    (m : websocketMessage) (hev : m.Event ≠ "answer") :
    handleWebsocketMessage w hist (some m) = ([], HandleOutcome.returned none) := by
  simp [handleWebsocketMessage, hev]

/-- Witness of `handleWebsocketMessage_ignores_other_events`: an `offer`
message. -/
theorem handleWebsocketMessage_ignores_other_events_witness :
    ("offer" : String) ≠ "answer" ∧
    handleWebsocketMessage calmWorld [] (some { Event := "offer", Data := "v=0" })
      = ([], HandleOutcome.returned none) :=
  ⟨by decide,
    handleWebsocketMessage_ignores_other_events calmWorld []
      { Event := "offer", Data := "v=0" } (by decide)⟩

/-- C7: for an `answer` message whose data fails to parse as a session
description, `handleWebsocketMessage` returns the error without calling
`SetRemoteDescription`; and whenever `handleWebsocketMessage` returns an error
for a frame, the receive loop logs it and goes on with the next frame, so that
an `answer` frame that comes next and parses is applied to the peer
connection. -/
theorem handleWebsocketMessage_error_is_survived (w : World) (hist : List WsEvent)
    (bad : websocketMessage) (e : Err)
    (hev : bad.Event = "answer") (hparse : w.unmarshalDescription bad.Data = Except.error e) :
    handleWebsocketMessage w hist (some bad) = ([], HandleOutcome.returned (some e)) ∧
    (∀ (f : Frame) (fs : List Frame) (message : Option websocketMessage)
        (hist1 : List WsEvent) (m : Option websocketMessage) (evs : List WsEvent) (e1 : Err),
      jsonUnmarshalMessage f message = Except.ok m →
      handleWebsocketMessage w (hist1 ++ [WsEvent.readMessage]) m
        = (evs, HandleOutcome.returned (some e1)) →
      receiveLoop w (f :: fs) message hist1
        = receiveLoop w fs m (hist1 ++ [WsEvent.readMessage] ++ evs ++ [WsEvent.log e1])) ∧
    (∀ (f : Frame) (fs : List Frame) (message : Option websocketMessage)
        (hist1 : List WsEvent) (m : Option websocketMessage) (evs : List WsEvent) (e1 : Err)
        (good : String) (sdp : SessionDescription),
      jsonUnmarshalMessage f message = Except.ok m →
      handleWebsocketMessage w (hist1 ++ [WsEvent.readMessage]) m
        = (evs, HandleOutcome.returned (some e1)) →
      w.unmarshalDescription good = Except.ok sdp →
      ∃ tail,
        (receiveLoop w (f :: Frame.object (some "answer") (some good) :: fs) message hist1).trace
          = hist1 ++ [WsEvent.readMessage] ++ evs
            ++ [WsEvent.log e1, WsEvent.readMessage, WsEvent.setRemoteDescription sdp]
            ++ tail) := by
  refine ⟨?_, ?_, ?_⟩
  · simp [handleWebsocketMessage, hev, hparse]
  · intro f fs message hist1 m evs e1 hd hh
    exact receiveLoop_step_error w f fs message hist1 m evs e1 hd hh
  · intro f fs message hist1 m evs e1 good sdp hd hh hp
    rw [receiveLoop_step_error w f _ message hist1 m evs e1 hd hh]
    obtain ⟨tail, ht⟩ := receiveLoop_answer w fs m
      (hist1 ++ [WsEvent.readMessage] ++ evs ++ [WsEvent.log e1]) good sdp hp
    exact ⟨tail, by rw [ht]; simp⟩

/-- Witness of `handleWebsocketMessage_error_is_survived`: an answer that does
not parse, then one that does. -/
theorem handleWebsocketMessage_error_is_survived_witness :
    ("answer" : String) = "answer" ∧
    garbledWorld.unmarshalDescription "garbled" = Except.error "bad description" ∧
    ∃ tail,
      (receiveLoop garbledWorld
          [Frame.object (some "answer") (some "garbled"),
           Frame.object (some "answer") (some "v=0")] (some { Event := "", Data := "" }) []).trace
        = [] ++ [WsEvent.readMessage] ++ []
          ++ [WsEvent.log "bad description", WsEvent.readMessage,
              WsEvent.setRemoteDescription { SDPType := "answer", SDP := "v=0" }]
          ++ tail :=
  ⟨rfl, rfl,
    (handleWebsocketMessage_error_is_survived garbledWorld []
      { Event := "answer", Data := "garbled" } "bad description" rfl rfl).2.2
      (Frame.object (some "answer") (some "garbled")) [] (some { Event := "", Data := "" }) []
      (some { Event := "answer", Data := "garbled" }) [] "bad description" "v=0"
      { SDPType := "answer", SDP := "v=0" } rfl rfl rfl⟩

/-- C8 (counterexample): after a frame that fails to decode, `serveWs` logs
the failure and returns: the `answer` frame behind it is never read (the
message is read once, and `SetRemoteDescription` is not called). -/
theorem serveWs_stops_at_malformed_frame :
    (serveWs calmWorld ⟨0⟩ ⟨1⟩
        [Frame.malformed "invalid character", Frame.object (some "answer") (some "v=0")]).trace
      = [WsEvent.upgrade, WsEvent.newPeerConnection, WsEvent.addTrack ⟨0⟩,
          WsEvent.addTrack ⟨1⟩, WsEvent.createOffer,
          WsEvent.setLocalDescription { SDPType := "offer", SDP := "v=0" },
          WsEvent.writeJSON { Event := "offer", Data := "v=0" },
          WsEvent.readMessage, WsEvent.log "invalid character",
          WsEvent.pcClose, WsEvent.wsClose] ∧
    (receiveLoop calmWorld
        [Frame.malformed "invalid character", Frame.object (some "answer") (some "v=0")]
        (some { Event := "", Data := "" }) []).exit = LoopExit.decodeError := by
  decide

/-- C8 (amended): the receive loop of `serveWs` is left when reading from the
channel yields an error, which is how it ends when every frame is a JSON
object (each of them is read, and then the read that fails), or when a frame
fails to decode: if the frames before that frame are all handled, the failure
is logged and the loop is left at once, whatever frames come after. -/
theorem receiveLoop_ends_at_decode_failure (w : World) (pre post : List Frame) (e : Err)
    (message : Option websocketMessage) (hist : List WsEvent)
    (hpre : (receiveLoop w pre message hist).exit = LoopExit.readError) :
    receiveLoop w (pre ++ Frame.malformed e :: post) message hist
      = { trace := (receiveLoop w pre message hist).trace ++ [WsEvent.log e],
          exit := LoopExit.decodeError } ∧
    (∀ frames : List Frame, (∀ f ∈ frames, ∃ event data, f = Frame.object event data) →
      (receiveLoop w frames message hist).exit = LoopExit.readError ∧
      (receiveLoop w frames message hist).trace.count WsEvent.readMessage
        = hist.count WsEvent.readMessage + (frames.length + 1)) :=
  ⟨receiveLoop_malformed w pre post e message hist hpre,
    fun frames hobj => receiveLoop_objects w frames hobj message hist⟩

/-- Witness of `receiveLoop_ends_at_decode_failure`: an ignored message, a
frame that is not JSON, and an answer that is never read. -/
theorem receiveLoop_ends_at_decode_failure_witness :
    (receiveLoop calmWorld [Frame.object (some "ping") none]
        (some { Event := "", Data := "" }) []).exit = LoopExit.readError ∧
    receiveLoop calmWorld
        ([Frame.object (some "ping") none] ++ Frame.malformed "invalid character"
          :: [Frame.object (some "answer") (some "v=0")])
        (some { Event := "", Data := "" }) []
      = { trace := (receiveLoop calmWorld [Frame.object (some "ping") none]
            (some { Event := "", Data := "" }) []).trace ++ [WsEvent.log "invalid character"],
          exit := LoopExit.decodeError } :=
  ⟨by decide,
    (receiveLoop_ends_at_decode_failure calmWorld [Frame.object (some "ping") none]
      [Frame.object (some "answer") (some "v=0")] "invalid character"
      (some { Event := "", Data := "" }) [] (by decide)).1⟩

/-- C9 (the code at the failing input): when the peer connection is created
and binding the audio track then fails, `serveWs` logs the error and closes
the websocket only: the peer connection is never closed. -/
theorem serveWs_bind_failure_leaves_peer_connection_open (frames : List Frame) :
    (serveWs audioBindFailsWorld ⟨0⟩ ⟨1⟩ frames).trace
      = [WsEvent.upgrade, WsEvent.newPeerConnection, WsEvent.addTrack ⟨0⟩,
          WsEvent.log "bind failed", WsEvent.wsClose] ∧
    (serveWs audioBindFailsWorld ⟨0⟩ ⟨1⟩ frames).trace.count WsEvent.pcClose = 0 := by
  have h : (serveWs audioBindFailsWorld ⟨0⟩ ⟨1⟩ frames).trace
      = [WsEvent.upgrade, WsEvent.newPeerConnection, WsEvent.addTrack ⟨0⟩,
          WsEvent.log "bind failed", WsEvent.wsClose] := by
    simp [serveWs, audioBindFailsWorld, calmWorld]
  rw [h]
  exact ⟨rfl, by decide⟩

/-- C10 (the code at the failing input): a first frame holding the JSON
literal `null` decodes without error and sets the reused `message` pointer to
nil; `handleWebsocketMessage` is then called with the nil pointer and reading
`message.Event` panics. -/
theorem serveWs_null_frame_nil_dereference :
    jsonUnmarshalMessage Frame.null (some { Event := "", Data := "" }) = Except.ok none ∧
    handleWebsocketMessage calmWorld [] none = ([], HandleOutcome.nilDereference) ∧
    (serveWs calmWorld ⟨0⟩ ⟨1⟩ [Frame.null]).panicked = true ∧
    (serveWs calmWorld ⟨0⟩ ⟨1⟩ [Frame.null]).trace
      = [WsEvent.upgrade, WsEvent.newPeerConnection, WsEvent.addTrack ⟨0⟩,
          WsEvent.addTrack ⟨1⟩, WsEvent.createOffer,
          WsEvent.setLocalDescription { SDPType := "offer", SDP := "v=0" },
          WsEvent.writeJSON { Event := "offer", Data := "v=0" },
          WsEvent.readMessage, WsEvent.pcClose, WsEvent.wsClose] :=
  ⟨rfl, rfl, by decide, by decide⟩

end Rtwatch
